import Mathlib

/-!
# Verification of the bughosttool scan engine (src/server.js)

Shallow embedding of the host-authorization and bounded-concurrency scan
engine of `src/server.js`, together with proofs about the claims of its
specification.

Modelling conventions:

* JavaScript numbers that flow through the handlers are modelled by `JSNum`:
  either `NaN` or an exact rational.  All numeric values the program
  manipulates (query parameters after `Number(...)`, ports, range bounds)
  are exactly representable as rationals, so no floating-point rounding is
  involved in any claim.
* External collaborators that are not part of the repository (the
  `ipaddr.js` library's `isValid`/`parse`/`match`, and `dns.lookup`) are
  modelled as oracle functions collected in a `NetEnv`.  `Option` encodes
  a throwing call (`none` = the call threw) resp. a failing DNS lookup.
* Asynchronous code is modelled in two complementary ways: the *value* of a
  settled promise is a pure function of its inputs (all the repository's
  promise values are), and the *scheduling* of `mapWithConcurrency` is a
  small-step state machine (`Sched.Step`) whose nondeterministic
  `complete` step models workers settling in arbitrary order.
-/

/-- A JavaScript number as it appears in this program: `NaN` or an exact
rational value (every value produced by `Number(...)` on the inputs the
claims mention is exact). -/
inductive JSNum where
  | nan : JSNum
  | num : ℚ → JSNum
  deriving DecidableEq, Repr

namespace JSNum

/-- JavaScript truthiness of a number: `NaN` and `0` are falsy. -/
def truthy : JSNum → Bool
  | nan => false
  | num q => decide (q ≠ 0)

/-- JavaScript `<` against a constant: any comparison with `NaN` is false. -/
def ltc : JSNum → ℚ → Bool
  | nan, _ => false
  | num q, c => decide (q < c)

/-- JavaScript `>` against a constant: any comparison with `NaN` is false. -/
def gtc : JSNum → ℚ → Bool
  | nan, _ => false
  | num q, c => decide (q > c)

/-- Whether this number is the JavaScript integer `n` (used to state
integrality claims about probed ports). -/
def isIntVal (j : JSNum) (n : ℤ) : Prop := j = num (n : ℚ)

end JSNum

/-- `MAX_PORT_RANGE` from src/server.js line 21. -/
def MAX_PORT_RANGE : ℤ := 200

/-- `MAX_CONCURRENCY` from src/server.js line 22. -/
def MAX_CONCURRENCY : ℚ := 50

/-- The external collaborators of the authorizer, not part of this
repository: `ipaddr.js` and `dns.lookup`.  `cidrOracle cidr ip = none`
models `ipaddr.parse`/`match` throwing inside `cidrContains`'s `try`;
`dnsLookup h = none` models `dns.lookup` rejecting for any reason. -/
structure NetEnv where
  isValidIP : String → Bool
  cidrOracle : String → String → Option Bool
  dnsLookup : String → Option (List String)

/-- `host.replace(/:\d+$/, "")` — strips one trailing `:digits` suffix:
the regex matches when the characters after the last colon are one or more
digits, and removes that colon and the digits. -/
def stripPort (host : String) : String :=
  let cs := host.data
  let ds := cs.reverse.takeWhile Char.isDigit
  if 0 < ds.length ∧ (cs.reverse.drop ds.length).head? = some ':' then
    String.mk (cs.take (cs.length - ds.length - 1))
  else
    host

/-- `s.includes(c)` for a single character, on the string's characters. -/
def hasChar (s : String) (c : Char) : Bool :=
  s.data.any (fun d => d == c)

/-- `cidrContains(cidr, ipStr)` from src/server.js lines 35–46: rules
without a `/` never match; otherwise `ipaddr.parse`/`match` decide, and any
thrown exception yields `false`. -/
def cidrContains (oracle : String → String → Option Bool) (cidr ipStr : String) : Bool :=
  if hasChar cidr '/' then (oracle cidr ipStr).getD false
  else false

/-- One iteration of the inner rule loop of `hostAllowedAsync`
(src/server.js lines 52–59 and 67–74): `candidate` is the string compared
by the CIDR and exact-IP branches (the trimmed host in the IP-literal
branch, a resolved address in the DNS branch); the hostname-exact branch
always compares `trimmed`. -/
def ruleMatchAgainst (env : NetEnv) (rule candidate trimmed : String) : Bool :=
  if hasChar rule '/' then cidrContains env.cidrOracle rule candidate
  else if env.isValidIP rule then candidate == rule
  else trimmed == rule

/-- `hostAllowedAsync(host)` from src/server.js lines 48–81.  The
`try`/`catch` around the DNS branch is the `Option` match: a rejected
lookup returns `false` (the function is total — it never throws). -/
def hostAllowedAsync (env : NetEnv) (allowlist : List String) (host : String) : Bool :=
  if host.isEmpty then false
  else
    let trimmed := stripPort host
    if env.isValidIP trimmed then
      allowlist.any (fun rule => ruleMatchAgainst env rule trimmed trimmed)
    else
      match env.dnsLookup trimmed with
      | none => false
      | some records =>
          records.any (fun addr =>
            allowlist.any (fun rule => ruleMatchAgainst env rule addr trimmed))

/-- The first socket event delivered to a probe's socket: `connect`,
`timeout`, or `error` with the error's `code` (absent or possibly empty)
and its `String(err)` rendering.  `checkTcpPort`'s `resolved` flag makes
every later event a no-op, so the first event determines the result. -/
inductive SocketEvent where
  | connect : SocketEvent
  | timeout : SocketEvent
  | sockError : Option String → String → SocketEvent
  deriving DecidableEq, Repr

/-- The object `checkTcpPort` resolves with: `{host, port, status, error?}`. -/
structure ProbeResult where
  host : String
  port : JSNum
  status : String
  error : Option String
  deriving DecidableEq, Repr

/-- `(err && err.code) || String(err)` — the error detail recorded for a
non-refused socket error: the code when present and truthy, otherwise the
stringified error. -/
def errorDetail (code : Option String) (msg : String) : String :=
  match code with
  | some c => if c.isEmpty then msg else c
  | none => msg

/-- `checkTcpPort(host, port, timeoutMs)` from src/server.js lines 83–107,
as a function of the first socket event: the event classification the
probe's promise resolves with once `socket.connect(port, host)` has
accepted its arguments (which it does for every spec-typed port, an
integer in [1,65535]).  The case where `socket.connect` itself throws
synchronously — before any event can fire — is `checkTcpPortPromise`
below. -/
def checkTcpPort (host : String) (port : JSNum) (ev : SocketEvent) : ProbeResult :=
  match ev with
  | .connect => ⟨host, port, "open", none⟩
  | .timeout => ⟨host, port, "timeout", none⟩
  | .sockError code msg =>
      if code = some "ECONNREFUSED" then ⟨host, port, "closed", some "ECONNREFUSED"⟩
      else ⟨host, port, "error", some (errorDetail code msg)⟩

/-- Node's `validatePort` check, run synchronously by
`socket.connect(port, host)` (src/server.js line 105): a number is an
acceptable port iff it is an integer in [0,65535]; `NaN`, negative,
non-integer and oversized numbers make `connect` throw
`ERR_SOCKET_BAD_PORT`.  Modelled from the platform (`node:net`), which is
external to this repository. -/
def validConnectPort : JSNum → Bool
  | .nan => false
  | .num q => decide (q.den = 1 ∧ 0 ≤ q ∧ q ≤ 65535)

/-- The full behavior of the promise `checkTcpPort` returns: when
`socket.connect` rejects the port, the synchronous throw inside the
`new Promise` executor becomes a *rejection* of the promise
(`Except.error`); otherwise the promise resolves with the
first-socket-event classification. -/
def checkTcpPortPromise (host : String) (port : JSNum) (ev : SocketEvent) :
    Except String ProbeResult :=
  if validConnectPort port then .ok (checkTcpPort host port ev)
  else .error "ERR_SOCKET_BAD_PORT"

/-- The result slot `mapWithConcurrency` produces for one item: the
worker's resolved value, or — when the worker threw / its promise rejected
— the `{error: String(e)}` object built by the `catch` (src/server.js
line 114). -/
inductive WorkerResult (β : Type) where
  | ok : β → WorkerResult β
  | errObj : String → WorkerResult β
  deriving DecidableEq, Repr

/-- The wrapped worker of src/server.js lines 113–115:
`try { return await fn(item) } catch (e) { return { error: String(e) } }`.
A worker's outcome is a function of its item; `Except.error e` models the
worker throwing with `String(e) = e`. -/
def runWorker {α β : Type} (fn : α → Except String β) (item : α) : WorkerResult β :=
  match fn item with
  | .ok b => .ok b
  | .error e => .errObj e

/-- The value `mapWithConcurrency(items, fn, concurrency)` resolves with
(src/server.js lines 109–124): the promises are pushed into `results` in
input order at launch time and `Promise.all` matches positionally, so the
resolved array is the input-ordered map of the wrapped worker — regardless
of completion order, which only affects timing.  (The claim that the
scheduling itself respects the concurrency bound and this positional
correspondence is proved against the `Sched` state machine below.) -/
def mapWithConcurrency {α β : Type} (items : List α) (fn : α → Except String β) :
    List (WorkerResult β) :=
  items.map (runWorker fn)

/-- The ascending port list built by
`for (let p = min; p <= max; p++) ports.push(p)` (src/server.js
lines 161–162). -/
def portsList (lo hi : ℤ) : List ℤ :=
  (List.range (hi + 1 - lo).toNat).map (fun (i : ℕ) => lo + (i : ℤ))

/-- `Math.max(1, Math.min(65535, x))` — the clamp applied to each range
bound (src/server.js lines 152–153). -/
def clampPort (x : ℤ) : ℤ := max 1 (min 65535 x)

/-- Response of the `GET /tcp/check` handler, by branch: HTTP 400 with an
error message, HTTP 403, HTTP 200 with the probe result, or — when the
awaited probe promise rejects (`ERR_SOCKET_BAD_PORT`) — no JSON response
at all: the exception escapes the `async` handler, which Express 4 leaves
as an unhandled rejection. -/
inductive CheckResponse where
  | badRequest : String → CheckResponse
  | forbidden : CheckResponse
  | okCheck : ProbeResult → CheckResponse
  | unhandledRejection : String → CheckResponse
  deriving DecidableEq, Repr

/-- The `GET /tcp/check` handler, src/server.js lines 126–138.  `host` is
the trimmed query string, `port = Number(req.query.port || 0)`, and
`probeEv` is the first socket event the probe would observe.  The branch
order is the source's: presence check, then authorizer, then range check,
then the probe — whose promise rejects when `socket.connect` refuses the
port value, so that `await` at line 136 throws and no `{ok:true,result}`
response is produced. -/
def tcpCheckHandler (env : NetEnv) (allowlist : List String)
    (host : String) (port : JSNum) (probeEv : SocketEvent) : CheckResponse :=
  if host.isEmpty || !port.truthy then .badRequest "missing host or port"
  else if !hostAllowedAsync env allowlist host then .forbidden
  else if port.ltc 1 || port.gtc 65535 then .badRequest "port out of range"
  else
    match checkTcpPortPromise host port probeEv with
    | .ok r => .okCheck r
    | .error e => .unhandledRejection e

/-- Response of the `POST /tcp/scan-range` handler, by branch. -/
inductive ScanResponse where
  | badRequest : String → ScanResponse
  | forbidden : ScanResponse
  | okScan : String → Nat → List (WorkerResult ProbeResult) → ScanResponse
  deriving DecidableEq, Repr

/-- The `range too large` message of src/server.js line 158. -/
def rangeTooLargeMsg (count : ℤ) : String :=
  "range too large (" ++ toString count ++ " ports); max allowed " ++ toString MAX_PORT_RANGE

/-- `Number.isInteger` applied to a JSON body field: true only for a
numeric field whose value is an integer.  `none` covers an absent or
non-numeric field (no coercion is performed). -/
def isIntegerField : Option JSNum → Bool
  | some (.num q) => decide (q.den = 1)
  | _ => false

/-- Numeric value of a body field known to be an integer. -/
def fieldInt : Option JSNum → ℤ
  | some (.num q) => q.num
  | _ => 0

/-- The `POST /tcp/scan-range` handler, src/server.js lines 140–167.
`start`/`end_` are the raw JSON body fields (`none` = absent or
non-numeric); `probeEv` gives the first socket event each probed port
would observe.  `scanned_count` is `results.length` as in the source.
Every scanned port is an integer in [1,65535] by construction (clamped
bounds), so `socket.connect` accepts it and the worker's promise always
resolves — hence `Except.ok` (`checkTcpPortPromise_int_agrees` makes this
agreement with the full promise semantics formal). -/
def scanRangeHandler (env : NetEnv) (allowlist : List String)
    (host : String) (start end_ : Option JSNum) (probeEv : ℤ → SocketEvent) : ScanResponse :=
  if host.isEmpty || !isIntegerField start || !isIntegerField end_ then
    .badRequest "body must include host, start, end (integers)"
  else if !hostAllowedAsync env allowlist host then .forbidden
  else
    let s := clampPort (fieldInt start)
    let e := clampPort (fieldInt end_)
    let lo := min s e
    let hi := max s e
    let count := hi - lo + 1
    if count > MAX_PORT_RANGE then .badRequest (rangeTooLargeMsg count)
    else
      let ports := portsList lo hi
      let results := mapWithConcurrency ports
        (fun p => Except.ok (checkTcpPort host (.num p) (probeEv p)))
      .okScan host results.length results

namespace Sched

/-- Scheduling state of `mapWithConcurrency` (src/server.js lines 109–124):
`next` counts loop iterations performed (items launched), `inflight` holds
the indices of launched but unsettled workers (the `executing` set),
`results` holds the settled value of each positional slot (`none` =
promise still pending), `blocked` records that the loop is suspended at
`await Promise.race(executing)`. -/
structure State (β : Type) where
  next : Nat
  inflight : List Nat
  results : List (Option (WorkerResult β))
  blocked : Bool

/-- Initial state: nothing launched, `results` pre-sized to the input
length with every slot pending. -/
def initState (β : Type) (n : Nat) : State β :=
  ⟨0, [], List.replicate n none, false⟩

/-- Small-step transitions of the scheduler.

`launch` is one synchronous iteration of the `for` loop: it runs only while
the loop is not suspended, pushes the next item's promise (input order),
adds it to `executing`, and suspends iff `executing.size >= concurrency`
afterwards.  No worker can settle inside an iteration — the loop body has
no await before the size check — so the whole iteration is one step.

`complete` is an arbitrary in-flight worker settling: its `finally`
removes it from `executing` and its positional slot receives the worker's
value.  When the loop was suspended on `Promise.race`, that settling —
whose `finally` reaction was registered before the race subscribed — is
what resumes the loop, so `blocked` drops to `false`.  Completion order is
unconstrained: any in-flight index may settle at any time. -/
inductive Step {α β : Type} (items : List α) (fn : α → Except String β) (limit : Nat) :
    State β → State β → Prop where
  | launch (s : State β) (h : s.blocked = false) (hn : s.next < items.length) :
      Step items fn limit s
        ⟨s.next + 1, s.inflight ++ [s.next], s.results,
          decide (limit ≤ s.inflight.length + 1)⟩
  | complete (s : State β) (i : Nat) (a : α) (hi : i ∈ s.inflight)
      (ha : items.get? i = some a) :
      Step items fn limit s
        ⟨s.next, s.inflight.erase i, s.results.set i (some (runWorker fn a)), false⟩

/-- States reachable from the initial state. -/
def Reachable {α β : Type} (items : List α) (fn : α → Except String β) (limit : Nat)
    (s : State β) : Prop :=
  Relation.ReflTransGen (Step items fn limit) (initState β items.length) s

/-- Inductive invariant of the scheduler. -/
structure Inv {α β : Type} (items : List α) (fn : α → Except String β) (limit : Nat)
    (s : State β) : Prop where
  next_le : s.next ≤ items.length
  nodup : s.inflight.Nodup
  mem_lt : ∀ i ∈ s.inflight, i < s.next
  rlen : s.results.length = items.length
  settled_slot : ∀ j a, j < s.next → j ∉ s.inflight → items.get? j = some a →
    s.results.get? j = some (some (runWorker fn a))
  blocked_lt : s.blocked = false → s.inflight.length < limit
  len_le : s.inflight.length ≤ limit

end Sched

/-- `count = max - min + 1` as computed by the scan-range handler
(src/server.js lines 152–156) from raw integer `start`/`end`. -/
def scanCount (s e : ℤ) : ℤ :=
  max (clampPort s) (clampPort e) - min (clampPort s) (clampPort e) + 1

/-- `min` of the clamped bounds (src/server.js line 154). -/
def scanLo (s e : ℤ) : ℤ := min (clampPort s) (clampPort e)

/-- `max` of the clamped bounds (src/server.js line 155). -/
def scanHi (s e : ℤ) : ℤ := max (clampPort s) (clampPort e)

/-- The range-scan worker `(port) => checkTcpPort(host, port, timeoutMs)`
(src/server.js line 164): the scanned ports are integers in [1,65535] by
construction, for which `socket.connect` accepts the port and the promise
always resolves — hence `Except.ok` (see
`checkTcpPortPromise_int_agrees`). -/
def scanWorker (host : String) (probeEv : ℤ → SocketEvent) : ℤ → Except String ProbeResult :=
  fun p => Except.ok (checkTcpPort host (.num (p : ℚ)) (probeEv p))

/-- Modelled from the spec: the authorization predicate §4.2 describes for
an IP-literal host — authorized iff some allowlist rule matches, where an
exact-hostname rule (neither CIDR nor valid IP) matches "the original,
unstripped host string".  Stated for comparison with `hostAllowedAsync`,
which compares the stripped string instead. -/
def specAuthorizedIPLiteral (env : NetEnv) (allowlist : List String) (host : String) : Bool :=
  let trimmed := stripPort host
  allowlist.any (fun rule =>
    if hasChar rule '/' then cidrContains env.cidrOracle rule trimmed
    else if env.isValidIP rule then trimmed == rule
    else host == rule)

/-- Modelled from the spec: the authorization predicate §4.2 describes for
a hostname whose DNS resolution succeeded with `addrs` — authorized iff
any resolved address matches any CIDR or exact-IP rule, or an
exact-hostname rule matches the original host string.  Stated for
comparison with `hostAllowedAsync`, which checks hostname-exact rules
against the stripped string and only inside the per-address loop. -/
def specAuthorizedResolved (env : NetEnv) (allowlist : List String) (host : String)
    (addrs : List String) : Bool :=
  (addrs.any (fun addr => allowlist.any (fun rule =>
    (hasChar rule '/' && cidrContains env.cidrOracle rule addr) ||
    (!hasChar rule '/' && env.isValidIP rule && addr == rule)))) ||
  allowlist.any (fun rule => !hasChar rule '/' && !env.isValidIP rule && host == rule)

/-- A concrete environment for instantiating theorems: `ipaddr.isValid`
holds exactly for the four IP literals the instances use, the CIDR oracle
reports no containment, and the DNS table resolves `myhost` to `9.9.9.9`
and fails every other name. -/
def testEnv : NetEnv :=
  ⟨fun s => s == "1.2.3.4" || s == "8.8.8.8" || s == "127.0.0.1" || s == "9.9.9.9",
   fun _ _ => some false,
   fun s => if s == "myhost" then some ["9.9.9.9"] else none⟩

namespace Sched

theorem inv_init {α β : Type} (items : List α) (fn : α → Except String β) (limit : Nat)
    (hl : 1 ≤ limit) : Inv items fn limit (initState β items.length) := by
  refine ⟨Nat.zero_le _, List.nodup_nil, ?_, ?_, ?_, ?_, ?_⟩
  · intro i hi; simp [initState] at hi
  · simp [initState]
  · intro j a hj _ _; simp [initState] at hj
  · intro _; simpa [initState] using hl
  · simp [initState]

theorem inv_step {α β : Type} {items : List α} {fn : α → Except String β} {limit : Nat}
    {s t : State β} (hs : Inv items fn limit s) (hst : Step items fn limit s t) :
    Inv items fn limit t := by
  cases hst with
  | launch h hn =>
      obtain ⟨h1, h2, h3, h4, h5, h6, h7⟩ := hs
      have hfresh : s.next ∉ s.inflight := fun hmem => absurd (h3 _ hmem) (by omega)
      have hlt : s.inflight.length < limit := h6 h
      refine ⟨?_, ?_, ?_, ?_, ?_, ?_, ?_⟩ <;> dsimp only
      · omega
      · simpa [List.nodup_append] using ⟨h2, fun hmem => hfresh hmem⟩
      · intro i hi
        rcases List.mem_append.mp hi with hi | hi
        · exact Nat.lt_succ_of_lt (h3 _ hi)
        · simp at hi; omega
      · exact h4
      · intro j a hj hjn hja
        have hjne : j ≠ s.next := by
          intro heq; exact hjn (by simp [heq])
        have hjlt : j < s.next := by omega
        have hjn2 : j ∉ s.inflight := fun hmem => hjn (List.mem_append.mpr (Or.inl hmem))
        exact h5 j a hjlt hjn2 hja
      · intro hb
        simp only [List.length_append, List.length_cons, List.length_nil]
        have := of_decide_eq_false hb
        omega
      · simp only [List.length_append, List.length_cons, List.length_nil]
        omega
  | complete i a hi ha =>
      obtain ⟨h1, h2, h3, h4, h5, h6, h7⟩ := hs
      have hlen : (s.inflight.erase i).length = s.inflight.length - 1 :=
        List.length_erase_of_mem hi
      have hpos : 0 < s.inflight.length := List.length_pos_of_mem hi
      refine ⟨?_, ?_, ?_, ?_, ?_, ?_, ?_⟩ <;> dsimp only
      · exact h1
      · exact h2.erase i
      · intro j hj; exact h3 j (List.mem_of_mem_erase hj)
      · simpa using h4
      · intro j b hj hjn hjb
        by_cases hji : j = i
        · subst hji
          have hab : a = b := by rw [ha] at hjb; exact Option.some.inj hjb
          subst hab
          have hilt : j < s.results.length := by
            rw [h4]; exact Nat.lt_of_lt_of_le (h3 j hi) h1
          exact List.get?_set_eq_of_lt _ hilt
        · have hjn2 : j ∉ s.inflight := by
            intro hmem
            exact hjn ((List.mem_erase_of_ne hji).mpr hmem)
          rw [List.get?_set_ne _ _ (fun h => hji h.symm)]
          exact h5 j b hj hjn2 hjb
      · intro _; omega
      · omega

theorem inv_of_reachable {α β : Type} {items : List α} {fn : α → Except String β}
    {limit : Nat} {s : State β} (hl : 1 ≤ limit)
    (hs : Reachable items fn limit s) : Inv items fn limit s := by
  induction hs with
  | refl => exact inv_init items fn limit hl
  | tail _ hstep ih => exact inv_step ih hstep

end Sched

theorem portsList_length (lo hi : ℤ) : (portsList lo hi).length = (hi + 1 - lo).toNat := by
  rw [portsList, List.length_map, List.length_range]

theorem portsList_get? (lo hi : ℤ) (i : ℕ) (h : (i : ℤ) < hi - lo + 1) :
    (portsList lo hi).get? i = some (lo + i) := by
  have hi2 : i < (hi + 1 - lo).toNat := by omega
  rw [portsList, List.get?_map, List.get?_range hi2, Option.map_some']

theorem Sched.terminal_slot {α β : Type} {items : List α} {fn : α → Except String β}
    {limit : Nat} {s : Sched.State β} (hl : 1 ≤ limit)
    (hs : Sched.Reachable items fn limit s) (hnext : s.next = items.length)
    (hinf : s.inflight = []) {j : ℕ} {a : α} (hj : items.get? j = some a) :
    s.results.get? j = some (some (runWorker fn a)) := by
  have hInv := Sched.inv_of_reachable hl hs
  have hjlt : j < items.length := (List.get?_eq_some.mp hj).1
  exact hInv.settled_slot j a (by omega) (by simp [hinf]) hj

/-- **C5.** The Bounded Scheduler never lets more than the concurrency
limit of workers be simultaneously in flight: in every state reachable by
`mapWithConcurrency`'s scheduling (launches interleaved with completions
in any order), the `executing` set has size at most `limit`.  The
hypothesis `1 ≤ limit` reflects every call site: the scan-range handler
clamps `concurrency` into `[1, MAX_CONCURRENCY]` and the default is 10. -/
theorem mapWithConcurrency_inflight_le_limit {α β : Type} (items : List α)
    (fn : α → Except String β) (limit : Nat) (hl : 1 ≤ limit)
    (s : Sched.State β) (hs : Sched.Reachable items fn limit s) :
    s.inflight.length ≤ limit :=
  (Sched.inv_of_reachable hl hs).len_le

/-- Witness for C5: after launching the first of three items with limit 2,
the in-flight count is within the bound. -/
theorem mapWithConcurrency_inflight_le_limit_witness :
    1 ≤ 2 ∧
    (Sched.State.mk 1 ((Sched.initState ℤ 3).inflight ++ [0])
      (Sched.initState ℤ 3).results (decide (2 ≤ (Sched.initState ℤ 3).inflight.length + 1))
      : Sched.State ℤ).inflight.length ≤ 2 :=
  ⟨by decide,
    mapWithConcurrency_inflight_le_limit [(10 : ℤ), 20, 30] (fun x => Except.ok x) 2
      (by decide) _
      (Relation.ReflTransGen.single (Sched.Step.launch _ rfl (by decide)))⟩

/-- **C7.** `checkTcpPort` classifies the first socket event as: connect →
`open`; timeout → `timeout`; `ECONNREFUSED` → `closed` with that signal
recorded in the `error` field; any other error → `error` with the error's
code (or its string rendering when the code is absent or empty) recorded.
The embedding is a total function into `ProbeResult`: the promise always
resolves with a result and never rejects. -/
theorem checkTcpPort_outcome_classification (host : String) (port : JSNum) :
    (checkTcpPort host port .connect = ⟨host, port, "open", none⟩) ∧
    (checkTcpPort host port .timeout = ⟨host, port, "timeout", none⟩) ∧
    (∀ msg, checkTcpPort host port (.sockError (some "ECONNREFUSED") msg) =
      ⟨host, port, "closed", some "ECONNREFUSED"⟩) ∧
    (∀ code msg, code ≠ some "ECONNREFUSED" →
      checkTcpPort host port (.sockError code msg) =
        ⟨host, port, "error", some (errorDetail code msg)⟩) := by
  refine ⟨rfl, rfl, fun msg => by simp [checkTcpPort], fun code msg hne => ?_⟩
  simp [checkTcpPort, hne]

/-- Witness for C7: a host-unreachable error is classified as `error`
with the code recorded. -/
theorem checkTcpPort_outcome_classification_witness :
    checkTcpPort "192.168.1.9" (.num 80) (.sockError (some "EHOSTUNREACH") "Error: EHOSTUNREACH") =
      ⟨"192.168.1.9", .num 80, "error", some "EHOSTUNREACH"⟩ := by
  have h := (checkTcpPort_outcome_classification "192.168.1.9" (.num 80)).2.2.2
    (some "EHOSTUNREACH") "Error: EHOSTUNREACH" (by decide)
  rw [h]; rfl

/-- **C10.** A `/tcp/check` request whose port parameter converts to `0`
or `NaN` is rejected with the 400 response carrying the
`missing host or port` message — exactly as an absent port is — for every
environment, allowlist and probe outcome: the response does not depend on
the authorizer or the probe, so neither is ever consulted, and the
out-of-range branch is never reached. -/
theorem tcpCheck_zero_or_nan_port_rejected (host : String) (port : JSNum)
    (hp : port = .nan ∨ port = .num 0) :
    ∀ (env : NetEnv) (allowlist : List String) (probeEv : SocketEvent),
      tcpCheckHandler env allowlist host port probeEv = .badRequest "missing host or port" := by
  intro env allowlist probeEv
  have ht : port.truthy = false := by
    rcases hp with h | h <;> subst h <;> simp [JSNum.truthy]
  simp [tcpCheckHandler, ht]

/-- Witness for C10: a literal request with `port=0` against an allowlisted
host is rejected with the missing-parameter message. -/
theorem tcpCheck_zero_or_nan_port_rejected_witness :
    tcpCheckHandler testEnv ["127.0.0.1"] "127.0.0.1" (.num 0) .connect =
      .badRequest "missing host or port" :=
  tcpCheck_zero_or_nan_port_rejected "127.0.0.1" (.num 0) (Or.inr rfl) testEnv ["127.0.0.1"] .connect

theorem checkTcpPort_port (host : String) (port : JSNum) (ev : SocketEvent) :
    (checkTcpPort host port ev).port = port := by
  cases ev with
  | connect => rfl
  | timeout => rfl
  | sockError c m =>
      by_cases hc : c = some "ECONNREFUSED" <;> simp [checkTcpPort, hc]

theorem checkTcpPortPromise_int_agrees (host : String) (p : ℤ) (ev : SocketEvent)
    (h1 : 1 ≤ p) (h2 : p ≤ 65535) :
    checkTcpPortPromise host (.num (p : ℚ)) ev =
      .ok (checkTcpPort host (.num (p : ℚ)) ev) := by
  have hv : validConnectPort (.num (p : ℚ)) = true := by
    simp only [validConnectPort, decide_eq_true_eq]
    refine ⟨Rat.den_intCast p, ?_, ?_⟩
    · exact_mod_cast (by omega : (0 : ℤ) ≤ p)
    · exact_mod_cast h2
  simp [checkTcpPortPromise, hv]

/-- **C8.** A worker that throws for some item is caught and converted to
an `{error: ...}` result item; the batch value is total (the combined
promise never rejects), has one result per item, and every item's slot —
the failing one included — holds exactly its own worker's converted
outcome, so one failing item does not disturb the others. -/
theorem mapWithConcurrency_worker_failure_isolated {α β : Type} (items : List α)
    (fn : α → Except String β) (i : ℕ) (a : α) (e : String)
    (ha : items.get? i = some a) (hf : fn a = .error e) :
    (mapWithConcurrency items fn).length = items.length ∧
    (mapWithConcurrency items fn).get? i = some (.errObj e) ∧
    (∀ j b, items.get? j = some b →
      (mapWithConcurrency items fn).get? j = some (runWorker fn b)) := by
  refine ⟨by rw [mapWithConcurrency, List.length_map], ?_, ?_⟩
  · rw [mapWithConcurrency, List.get?_map, ha, Option.map_some']
    simp [runWorker, hf]
  · intro j b hj
    rw [mapWithConcurrency, List.get?_map, hj, Option.map_some']

/-- Witness for C8: with the middle of three workers throwing, the batch
still yields three results, the middle slot holds the converted error, and
the last slot holds its own worker's value. -/
theorem mapWithConcurrency_worker_failure_isolated_witness :
    (mapWithConcurrency [(1 : ℤ), 2, 3]
      (fun x => if x = 2 then Except.error "Error: boom" else Except.ok x)).length = 3 ∧
    (mapWithConcurrency [(1 : ℤ), 2, 3]
      (fun x => if x = 2 then Except.error "Error: boom" else Except.ok x)).get? 1 =
      some (.errObj "Error: boom") ∧
    (mapWithConcurrency [(1 : ℤ), 2, 3]
      (fun x => if x = 2 then Except.error "Error: boom" else Except.ok x)).get? 2 =
      some (.ok 3) := by
  have h := mapWithConcurrency_worker_failure_isolated [(1 : ℤ), 2, 3]
    (fun x => if x = 2 then Except.error "Error: boom" else Except.ok x) 1 2 "Error: boom"
    (by rfl) (by rfl)
  exact ⟨h.1, h.2.1, h.2.2 2 3 (by rfl)⟩

/-- **C9 (amended).** The single-port check's validation does not enforce
integrality: any port whose `Number` conversion is a rational in
[1,65535] passes validation and is handed to the Port Probe.  When that
value is one of the integers 1..65535, `socket.connect` accepts it, the
probe runs, and the result echoes the port; when it is not an integer,
`socket.connect` throws `ERR_SOCKET_BAD_PORT` synchronously, the probe
promise rejects, and the handler produces no ok-response.  So every
*successful* probe response carries an integer port in [1,65535], but a
non-integer port still reaches the probe (see the counterexample). -/
theorem tcpCheck_probed_port_in_range (env : NetEnv) (allowlist : List String)
    (host : String) (port : JSNum) (probeEv : SocketEvent) :
    (∀ r : ProbeResult, tcpCheckHandler env allowlist host port probeEv = .okCheck r →
      r.port = port ∧ ∃ q : ℚ, port = .num q ∧ q.den = 1 ∧ 1 ≤ q ∧ q ≤ 65535) ∧
    (∀ msg, tcpCheckHandler env allowlist host port probeEv = .unhandledRejection msg →
      msg = "ERR_SOCKET_BAD_PORT" ∧
      ∃ q : ℚ, port = .num q ∧ ¬q.den = 1 ∧ 1 ≤ q ∧ q ≤ 65535) := by
  unfold tcpCheckHandler
  by_cases h1 : (host.isEmpty || !port.truthy) = true
  · rw [if_pos h1]
    exact ⟨fun r hr => (nomatch hr), fun msg hm => (nomatch hm)⟩
  rw [if_neg h1]
  by_cases h2 : (!hostAllowedAsync env allowlist host) = true
  · rw [if_pos h2]
    exact ⟨fun r hr => (nomatch hr), fun msg hm => (nomatch hm)⟩
  rw [if_neg h2]
  by_cases h3 : (port.ltc 1 || port.gtc 65535) = true
  · rw [if_pos h3]
    exact ⟨fun r hr => (nomatch hr), fun msg hm => (nomatch hm)⟩
  rw [if_neg h3]
  cases port with
  | nan => simp [JSNum.truthy] at h1
  | num q =>
      have hq : 1 ≤ q ∧ q ≤ 65535 := by
        have h4 := h3
        simp [JSNum.ltc, JSNum.gtc] at h4
        exact h4
      by_cases hd : q.den = 1
      · have hv : validConnectPort (.num q) = true := by
          simp only [validConnectPort, decide_eq_true_eq]
          exact ⟨hd, le_trans zero_le_one hq.1, hq.2⟩
        have hcp : checkTcpPortPromise host (.num q) probeEv =
            .ok (checkTcpPort host (.num q) probeEv) := by
          simp [checkTcpPortPromise, hv]
        simp only [hcp]
        refine ⟨?_, ?_⟩
        · intro r hr
          have hrr : checkTcpPort host (.num q) probeEv = r :=
            CheckResponse.okCheck.inj hr
          subst hrr
          exact ⟨checkTcpPort_port host (.num q) probeEv, q, rfl, hd, hq.1, hq.2⟩
        · intro msg hm; cases hm
      · have hv : validConnectPort (.num q) = false := by
          simp only [validConnectPort, decide_eq_false_iff_not]
          intro hAnd
          exact hd hAnd.1
        have hcp : checkTcpPortPromise host (.num q) probeEv =
            .error "ERR_SOCKET_BAD_PORT" := by
          simp [checkTcpPortPromise, hv]
        simp only [hcp]
        refine ⟨?_, ?_⟩
        · intro r hr; cases hr
        · intro msg hm
          have hmsg : "ERR_SOCKET_BAD_PORT" = msg :=
            CheckResponse.unhandledRejection.inj hm
          exact ⟨hmsg.symm, q, rfl, hd, hq.1, hq.2⟩

/-- Witness for C9: an accepted request with `port=80` probes the integer
80, which lies in [1,65535], and the result echoes it. -/
theorem tcpCheck_probed_port_in_range_witness :
    (⟨"127.0.0.1", .num 80, "open", none⟩ : ProbeResult).port = .num 80 ∧
    ∃ q : ℚ, (JSNum.num 80) = .num q ∧ q.den = 1 ∧ 1 ≤ q ∧ q ≤ 65535 :=
  (tcpCheck_probed_port_in_range testEnv ["127.0.0.1"] "127.0.0.1" (.num 80) .connect).1
    ⟨"127.0.0.1", .num 80, "open", none⟩ (by decide)

/-- Counterexample for C9 as stated: the request `host=127.0.0.1`,
`port=3.5` passes every validation step of the single-port check (the
response is neither a 400 nor a 403) and the non-integer value 7/2 is
handed to the Port Probe — where `socket.connect` throws
`ERR_SOCKET_BAD_PORT` synchronously, so the probe promise rejects and the
handler never answers. -/
theorem tcpCheck_non_integer_port_probed :
    tcpCheckHandler testEnv ["127.0.0.1"] "127.0.0.1" (.num (7 / 2)) .connect =
      .unhandledRejection "ERR_SOCKET_BAD_PORT" ∧
    (∀ msg, tcpCheckHandler testEnv ["127.0.0.1"] "127.0.0.1" (.num (7 / 2)) .connect ≠
      .badRequest msg) ∧
    tcpCheckHandler testEnv ["127.0.0.1"] "127.0.0.1" (.num (7 / 2)) .connect ≠ .forbidden ∧
    ¬ ∃ n : ℤ, (JSNum.num (7 / 2 : ℚ)) = .num ((n : ℚ)) := by
  have hden : ((7 : ℚ) / 2).den ≠ 1 := by norm_num
  have hal : hostAllowedAsync testEnv ["127.0.0.1"] "127.0.0.1" = true := by decide
  have hne : "127.0.0.1".isEmpty = false := by decide
  have hv : validConnectPort (.num (7 / 2)) = false := by
    simp only [validConnectPort, decide_eq_false_iff_not]
    intro hAnd
    exact hden hAnd.1
  have h : tcpCheckHandler testEnv ["127.0.0.1"] "127.0.0.1" (.num (7 / 2)) .connect =
      .unhandledRejection "ERR_SOCKET_BAD_PORT" := by
    simp [tcpCheckHandler, JSNum.truthy, JSNum.ltc, JSNum.gtc, checkTcpPortPromise, hv,
      hal, hne]
    norm_num
  refine ⟨h, ?_, ?_, ?_⟩
  · intro msg hm
    rw [h] at hm
    cases hm
  · rw [h]
    intro hm
    cases hm
  rintro ⟨n, hn⟩
  have h2 : (7 / 2 : ℚ) = (n : ℚ) := by injection hn
  have hden2 := congrArg Rat.den h2
  norm_num at hden2

theorem scanRangeHandler_accepted_form (env : NetEnv) (allowlist : List String)
    (host : String) (s e : ℤ) (probeEv : ℤ → SocketEvent)
    (hhost : host.isEmpty = false)
    (hallowed : hostAllowedAsync env allowlist host = true) :
    scanRangeHandler env allowlist host (some (.num (s : ℚ))) (some (.num (e : ℚ))) probeEv =
      if scanCount s e > MAX_PORT_RANGE then
        ScanResponse.badRequest (rangeTooLargeMsg (scanCount s e))
      else
        ScanResponse.okScan host
          (mapWithConcurrency
            (portsList (min (clampPort s) (clampPort e)) (max (clampPort s) (clampPort e)))
            (fun p => Except.ok (checkTcpPort host (.num (p : ℚ)) (probeEv p)))).length
          (mapWithConcurrency
            (portsList (min (clampPort s) (clampPort e)) (max (clampPort s) (clampPort e)))
            (fun p => Except.ok (checkTcpPort host (.num (p : ℚ)) (probeEv p)))) := by
  unfold scanRangeHandler scanCount
  simp [hhost, hallowed, isIntegerField, fieldInt]

/-- **C1 (amended).** Whenever `count = max-min+1`, computed from the
clamped, order-normalized bounds, exceeds `MAX_PORT_RANGE` (200), an
authorized scan-range request is rejected with the range-too-large
validation error, for every probe-event oracle — so no probe influences
the response and none executes.  (The original claim's concrete example
`start=70000, end=80000` is *not* rejected: both bounds clamp to 65535
first, giving `count = 1`; see the counterexample theorem.) -/
theorem scanRange_oversized_rejected (env : NetEnv) (allowlist : List String)
    (host : String) (s e : ℤ) (probeEv : ℤ → SocketEvent)
    (hhost : host.isEmpty = false)
    (hallowed : hostAllowedAsync env allowlist host = true)
    (hcount : scanCount s e > MAX_PORT_RANGE) :
    scanRangeHandler env allowlist host (some (.num (s : ℚ))) (some (.num (e : ℚ))) probeEv =
      .badRequest (rangeTooLargeMsg (scanCount s e)) := by
  rw [scanRangeHandler_accepted_form env allowlist host s e probeEv hhost hallowed,
    if_pos hcount]

/-- Witness for C1: `start=1, end=500` gives `count = 500 > 200` and is
rejected with the range-too-large message. -/
theorem scanRange_oversized_rejected_witness :
    scanRangeHandler testEnv ["127.0.0.1"] "127.0.0.1"
      (some (.num ((1 : ℤ) : ℚ))) (some (.num ((500 : ℤ) : ℚ))) (fun _ => .connect) =
      .badRequest (rangeTooLargeMsg 500) := by
  have h := scanRange_oversized_rejected testEnv ["127.0.0.1"] "127.0.0.1" 1 500
    (fun _ => .connect) (by decide) (by decide) (by decide)
  rw [show scanCount 1 500 = 500 from by decide] at h
  exact h

/-- Counterexample for C1 as stated: the request `start=70000, end=80000`
(host authorized) is *not* rejected with the invalid-range error — both
bounds clamp to 65535 before the size check, `count = 1 ≤ 200`, and a scan
of the single port 65535 executes. -/
theorem scanRange_70000_80000_accepted :
    scanRangeHandler testEnv ["127.0.0.1"] "127.0.0.1"
      (some (.num 70000)) (some (.num 80000)) (fun _ => .connect) =
      .okScan "127.0.0.1" 1 [.ok ⟨"127.0.0.1", .num 65535, "open", none⟩] ∧
    ∀ msg, scanRangeHandler testEnv ["127.0.0.1"] "127.0.0.1"
      (some (.num 70000)) (some (.num 80000)) (fun _ => .connect) ≠ .badRequest msg := by
  have h : scanRangeHandler testEnv ["127.0.0.1"] "127.0.0.1"
      (some (.num 70000)) (some (.num 80000)) (fun _ => .connect) =
      .okScan "127.0.0.1" 1 [.ok ⟨"127.0.0.1", .num 65535, "open", none⟩] := by decide
  exact ⟨h, fun msg hm => by rw [h] at hm; cases hm⟩

/-- **C2 (amended).** The single-port check validates only *presence* of
host and port before calling the Authorizer; the [1,65535] range check
runs *after* authorization.  Hence: a falsy port (0 or NaN) always yields
400; a present, out-of-range port yields 400 only when the host is
authorized; when the Authorizer rejects, the response is 403 even though
the port is out of range. -/
theorem tcpCheck_port_validation_order (env : NetEnv) (allowlist : List String)
    (host : String) (port : JSNum) (probeEv : SocketEvent) :
    (port.truthy = false →
      tcpCheckHandler env allowlist host port probeEv = .badRequest "missing host or port") ∧
    (port.truthy = true → host.isEmpty = false →
      hostAllowedAsync env allowlist host = false →
      tcpCheckHandler env allowlist host port probeEv = .forbidden) ∧
    (port.truthy = true → host.isEmpty = false →
      hostAllowedAsync env allowlist host = true →
      (port.ltc 1 || port.gtc 65535) = true →
      tcpCheckHandler env allowlist host port probeEv = .badRequest "port out of range") := by
  refine ⟨?_, ?_, ?_⟩
  · intro ht; simp [tcpCheckHandler, ht]
  · intro ht hhost hal; simp [tcpCheckHandler, ht, hhost, hal]
  · intro ht hhost hal h3; simp [tcpCheckHandler, ht, hhost, hal, h3]

/-- Witness for C2: with the default-style allowlist, the unauthorized
host `8.8.8.8` with out-of-range port 70000 gets 403, while the authorized
host `127.0.0.1` with the same port gets the range-validation 400. -/
theorem tcpCheck_port_validation_order_witness :
    tcpCheckHandler testEnv ["127.0.0.1"] "8.8.8.8" (.num 70000) .connect = .forbidden ∧
    tcpCheckHandler testEnv ["127.0.0.1"] "127.0.0.1" (.num 70000) .connect =
      .badRequest "port out of range" :=
  ⟨(tcpCheck_port_validation_order testEnv ["127.0.0.1"] "8.8.8.8" (.num 70000) .connect).2.1
      (by decide) (by decide) (by decide),
   (tcpCheck_port_validation_order testEnv ["127.0.0.1"] "127.0.0.1" (.num 70000) .connect).2.2
      (by decide) (by decide) (by decide) (by decide)⟩

/-- Counterexample for C2 as stated: port 70000 is outside [1,65535], yet
the request for the unauthorized host `8.8.8.8` is answered 403
(forbidden), not 400 — the Authorizer runs before the range check. -/
theorem tcpCheck_out_of_range_port_can_403 :
    (65535 : ℚ) < 70000 ∧
    tcpCheckHandler testEnv ["127.0.0.1"] "8.8.8.8" (.num 70000) .connect = .forbidden ∧
    ∀ msg, tcpCheckHandler testEnv ["127.0.0.1"] "8.8.8.8" (.num 70000) .connect ≠
      .badRequest msg := by
  have h : tcpCheckHandler testEnv ["127.0.0.1"] "8.8.8.8" (.num 70000) .connect =
      .forbidden := by decide
  exact ⟨by norm_num, h, fun msg hm => by rw [h] at hm; cases hm⟩

/-- **C3 (amended).** For a host whose value after stripping a trailing
`:port` suffix is a valid IP literal, authorization is decided from that
single IP with no DNS resolution: authorized iff some CIDR rule contains
the stripped IP or some exact-IP rule equals it.  Exact-hostname rules are
compared against the *stripped* string — not the original, unstripped one
the spec describes — and therefore can never match in this branch (a rule
that is not a valid IP cannot equal the valid-IP stripped string); see the
counterexample theorem.  The second conjunct shows the result is
independent of the DNS oracle: no resolution is performed. -/
theorem hostAllowed_ip_literal (env : NetEnv) (allowlist : List String) (host : String)
    (hhost : host.isEmpty = false)
    (hip : env.isValidIP (stripPort host) = true) :
    (hostAllowedAsync env allowlist host = true ↔
      ∃ rule ∈ allowlist,
        (hasChar rule '/' = true ∧ cidrContains env.cidrOracle rule (stripPort host) = true) ∨
        (hasChar rule '/' = false ∧ env.isValidIP rule = true ∧ stripPort host = rule)) ∧
    (∀ dns1 dns2 : String → Option (List String),
      hostAllowedAsync ⟨env.isValidIP, env.cidrOracle, dns1⟩ allowlist host =
        hostAllowedAsync ⟨env.isValidIP, env.cidrOracle, dns2⟩ allowlist host) := by
  have key : ∀ rule, ruleMatchAgainst env rule (stripPort host) (stripPort host) = true ↔
      ((hasChar rule '/' = true ∧ cidrContains env.cidrOracle rule (stripPort host) = true) ∨
       (hasChar rule '/' = false ∧ env.isValidIP rule = true ∧ stripPort host = rule)) := by
    intro rule
    unfold ruleMatchAgainst
    by_cases hc : hasChar rule '/' = true
    · simp [hc]
    · have hc2 : hasChar rule '/' = false := by simpa using hc
      by_cases hv : env.isValidIP rule = true
      · simp [hc2, hv]
      · have hv2 : env.isValidIP rule = false := by simpa using hv
        simp only [hc2, hv2, Bool.false_eq_true, if_false, beq_iff_eq]
        constructor
        · intro heq
          rw [heq] at hip
          rw [hip] at hv2
          cases hv2
        · rintro (⟨h, _⟩ | ⟨_, h, _⟩) <;> cases h
  constructor
  · simp only [hostAllowedAsync, hhost, Bool.false_eq_true, if_false, hip, if_true,
      List.any_eq_true]
    constructor
    · rintro ⟨rule, hmem, hmatch⟩; exact ⟨rule, hmem, (key rule).mp hmatch⟩
    · rintro ⟨rule, hmem, hmatch⟩; exact ⟨rule, hmem, (key rule).mpr hmatch⟩
  · intro dns1 dns2
    simp only [hostAllowedAsync, hhost, Bool.false_eq_true, if_false, hip, if_true]
    rfl

/-- Witness for C3: the allowlisted IP literal `127.0.0.1` is authorized
via its exact-IP rule, with no DNS resolution. -/
theorem hostAllowed_ip_literal_witness :
    (hostAllowedAsync testEnv ["127.0.0.1"] "127.0.0.1" = true ↔
      ∃ rule ∈ ["127.0.0.1"],
        (hasChar rule '/' = true ∧
          cidrContains testEnv.cidrOracle rule (stripPort "127.0.0.1") = true) ∨
        (hasChar rule '/' = false ∧ testEnv.isValidIP rule = true ∧
          stripPort "127.0.0.1" = rule)) ∧
    (∀ dns1 dns2 : String → Option (List String),
      hostAllowedAsync ⟨testEnv.isValidIP, testEnv.cidrOracle, dns1⟩ ["127.0.0.1"] "127.0.0.1" =
        hostAllowedAsync ⟨testEnv.isValidIP, testEnv.cidrOracle, dns2⟩ ["127.0.0.1"] "127.0.0.1") :=
  hostAllowed_ip_literal testEnv ["127.0.0.1"] "127.0.0.1" (by decide) (by decide)

/-- Counterexample for C3 as stated: the host `1.2.3.4:80` strips to the
valid IP literal `1.2.3.4`; the spec-worded predicate (hostname-exact
rules match the original, unstripped string) authorizes it against the
allowlist rule `1.2.3.4:80`, but the code compares the stripped string and
denies it. -/
theorem hostAllowed_ip_literal_unstripped_mismatch :
    testEnv.isValidIP (stripPort "1.2.3.4:80") = true ∧
    specAuthorizedIPLiteral testEnv ["1.2.3.4:80"] "1.2.3.4:80" = true ∧
    hostAllowedAsync testEnv ["1.2.3.4:80"] "1.2.3.4:80" = false := by decide

/-- **C4 (amended).** For a hostname (stripped value not a valid IP
literal): if DNS resolution fails, the host is not authorized — the
embedding is a total function, so no exception reaches the caller; if
resolution succeeds with address list `addrs`, authorized iff some
resolved address matches some rule, where a rule matches via CIDR
containment of the address, exact-IP equality with the address, or
hostname-exact equality with the *stripped* host string (not the original
string the spec describes — see the counterexample).  Because the
hostname-exact comparison sits inside the per-address loop, no rule at all
matches when `addrs` is empty. -/
theorem hostAllowed_hostname_dns (env : NetEnv) (allowlist : List String) (host : String)
    (hhost : host.isEmpty = false)
    (hip : env.isValidIP (stripPort host) = false) :
    (env.dnsLookup (stripPort host) = none → hostAllowedAsync env allowlist host = false) ∧
    (∀ addrs, env.dnsLookup (stripPort host) = some addrs →
      (hostAllowedAsync env allowlist host = true ↔
        ∃ addr ∈ addrs, ∃ rule ∈ allowlist,
          (hasChar rule '/' = true ∧ cidrContains env.cidrOracle rule addr = true) ∨
          (hasChar rule '/' = false ∧ env.isValidIP rule = true ∧ addr = rule) ∨
          (hasChar rule '/' = false ∧ env.isValidIP rule = false ∧ stripPort host = rule))) := by
  have key : ∀ rule addr, ruleMatchAgainst env rule addr (stripPort host) = true ↔
      ((hasChar rule '/' = true ∧ cidrContains env.cidrOracle rule addr = true) ∨
       (hasChar rule '/' = false ∧ env.isValidIP rule = true ∧ addr = rule) ∨
       (hasChar rule '/' = false ∧ env.isValidIP rule = false ∧ stripPort host = rule)) := by
    intro rule addr
    unfold ruleMatchAgainst
    by_cases hc : hasChar rule '/' = true
    · simp [hc]
    · have hc2 : hasChar rule '/' = false := by simpa using hc
      by_cases hv : env.isValidIP rule = true
      · simp [hc2, hv]
      · have hv2 : env.isValidIP rule = false := by simpa using hv
        simp [hc2, hv2]
  constructor
  · intro hdns
    simp [hostAllowedAsync, hhost, hip, hdns]
  · intro addrs hdns
    simp only [hostAllowedAsync, hhost, Bool.false_eq_true, if_false, hip, hdns,
      List.any_eq_true]
    constructor
    · rintro ⟨addr, haddr, rule, hmem, hmatch⟩
      exact ⟨addr, haddr, rule, hmem, (key rule addr).mp hmatch⟩
    · rintro ⟨addr, haddr, rule, hmem, hmatch⟩
      exact ⟨addr, haddr, rule, hmem, (key rule addr).mpr hmatch⟩

/-- Witness for C4: `nosuch.example` strips to itself (not a valid IP);
its DNS lookup fails in `testEnv`, so it is not authorized. -/
theorem hostAllowed_hostname_dns_witness :
    hostAllowedAsync testEnv ["127.0.0.1"] "nosuch.example" = false :=
  (hostAllowed_hostname_dns testEnv ["127.0.0.1"] "nosuch.example"
    (by decide) (by decide)).1 (by decide)

/-- Counterexample for C4 as stated: the host `myhost:80` strips to the
hostname `myhost`, whose resolution succeeds with `9.9.9.9`; no address
matches any rule, but the spec-worded predicate authorizes it because the
hostname-exact rule `myhost:80` equals the original string — the code
compares the stripped string and denies it. -/
theorem hostAllowed_hostname_unstripped_mismatch :
    testEnv.isValidIP (stripPort "myhost:80") = false ∧
    testEnv.dnsLookup (stripPort "myhost:80") = some ["9.9.9.9"] ∧
    specAuthorizedResolved testEnv ["myhost:80"] "myhost:80" ["9.9.9.9"] = true ∧
    hostAllowedAsync testEnv ["myhost:80"] "myhost:80" = false := by decide

theorem mapWithConcurrency_length {α β : Type} (items : List α) (fn : α → Except String β) :
    (mapWithConcurrency items fn).length = items.length := by
  rw [mapWithConcurrency, List.length_map]

/-- **C6.** For every accepted range-scan request with integer bounds
(authorized host, count within the cap): the response is `okScan` whose
`scanned_count` equals `count = max-min+1` computed from the clamped,
ascending-ordered bounds; the scanned port list is exactly the ascending
sequence `[min..max]` (element `i` is `min+i`); the response is identical
when start and end are swapped; result `i` corresponds positionally to
port `min+i` both in the resolved batch value and in every terminal
scheduler state, regardless of the order in which probes completed. -/
theorem scanRange_accepted_ordered_results (env : NetEnv) (allowlist : List String)
    (host : String) (s e : ℤ) (probeEv : ℤ → SocketEvent)
    (hhost : host.isEmpty = false)
    (hallowed : hostAllowedAsync env allowlist host = true)
    (hcount : scanCount s e ≤ MAX_PORT_RANGE) :
    scanRangeHandler env allowlist host (some (.num (s : ℚ))) (some (.num (e : ℚ))) probeEv =
      .okScan host (scanCount s e).toNat
        (mapWithConcurrency (portsList (scanLo s e) (scanHi s e)) (scanWorker host probeEv)) ∧
    ((scanCount s e).toNat : ℤ) = scanHi s e - scanLo s e + 1 ∧
    (portsList (scanLo s e) (scanHi s e)).length = (scanCount s e).toNat ∧
    (∀ i : ℕ, (i : ℤ) < scanCount s e →
      (portsList (scanLo s e) (scanHi s e)).get? i = some (scanLo s e + i)) ∧
    (∀ i : ℕ, (i : ℤ) < scanCount s e →
      (mapWithConcurrency (portsList (scanLo s e) (scanHi s e))
        (scanWorker host probeEv)).get? i =
        some (.ok (checkTcpPort host (.num ((scanLo s e + i : ℤ) : ℚ))
          (probeEv (scanLo s e + i))))) ∧
    scanRangeHandler env allowlist host (some (.num (e : ℚ))) (some (.num (s : ℚ))) probeEv =
      scanRangeHandler env allowlist host (some (.num (s : ℚ))) (some (.num (e : ℚ))) probeEv ∧
    (∀ limit : ℕ, 1 ≤ limit → ∀ st : Sched.State ProbeResult,
      Sched.Reachable (portsList (scanLo s e) (scanHi s e)) (scanWorker host probeEv) limit st →
      st.next = (portsList (scanLo s e) (scanHi s e)).length → st.inflight = [] →
      ∀ i : ℕ, (i : ℤ) < scanCount s e →
        st.results.get? i =
          some (some (.ok (checkTcpPort host (.num ((scanLo s e + i : ℤ) : ℚ))
            (probeEv (scanLo s e + i)))))) := by
  have hminmax : scanLo s e ≤ scanHi s e := min_le_max
  have hcast : ((scanCount s e).toNat : ℤ) = scanHi s e - scanLo s e + 1 := by
    show ((scanHi s e - scanLo s e + 1).toNat : ℤ) = scanHi s e - scanLo s e + 1
    omega
  have hlen : (portsList (scanLo s e) (scanHi s e)).length = (scanCount s e).toNat := by
    rw [portsList_length]
    congr 1
    show scanHi s e + 1 - scanLo s e = scanHi s e - scanLo s e + 1
    omega
  have hform := scanRangeHandler_accepted_form env allowlist host s e probeEv hhost hallowed
  have hnot : ¬(scanCount s e > MAX_PORT_RANGE) := not_lt.mpr hcount
  refine ⟨?_, hcast, hlen, ?_, ?_, ?_, ?_⟩
  · rw [hform, if_neg hnot]
    show ScanResponse.okScan host
      (mapWithConcurrency (portsList (scanLo s e) (scanHi s e)) (scanWorker host probeEv)).length
      (mapWithConcurrency (portsList (scanLo s e) (scanHi s e)) (scanWorker host probeEv)) = _
    rw [show (mapWithConcurrency (portsList (scanLo s e) (scanHi s e))
        (scanWorker host probeEv)).length = (scanCount s e).toNat from by
      rw [mapWithConcurrency_length]; exact hlen]
  · intro i hi2
    exact portsList_get? (scanLo s e) (scanHi s e) i hi2
  · intro i hi2
    have hp := portsList_get? (scanLo s e) (scanHi s e) i hi2
    rw [mapWithConcurrency, List.get?_map, hp, Option.map_some']
    rfl
  · have hform2 := scanRangeHandler_accepted_form env allowlist host e s probeEv hhost hallowed
    have h1 : min (clampPort e) (clampPort s) = min (clampPort s) (clampPort e) := min_comm _ _
    have h2 : max (clampPort e) (clampPort s) = max (clampPort s) (clampPort e) := max_comm _ _
    have h3 : scanCount e s = scanCount s e := by unfold scanCount; rw [h1, h2]
    rw [hform, hform2, h3, h1, h2]
  · intro limit hlim st hreach hnext hinf i hi2
    have hp := portsList_get? (scanLo s e) (scanHi s e) i hi2
    have hslot := Sched.terminal_slot hlim hreach hnext hinf hp
    rw [hslot]
    rfl

/-- Witness for C6: scanning `start=5, end=3` (reversed order) against an
authorized host yields exactly the three ascending ports 3, 4, 5 with
`scanned_count = 3`. -/
theorem scanRange_accepted_ordered_results_witness :
    scanRangeHandler testEnv ["127.0.0.1"] "127.0.0.1"
      (some (.num ((5 : ℤ) : ℚ))) (some (.num ((3 : ℤ) : ℚ))) (fun _ => .connect) =
      .okScan "127.0.0.1" 3
        [.ok ⟨"127.0.0.1", .num 3, "open", none⟩,
         .ok ⟨"127.0.0.1", .num 4, "open", none⟩,
         .ok ⟨"127.0.0.1", .num 5, "open", none⟩] := by
  have h := (scanRange_accepted_ordered_results testEnv ["127.0.0.1"] "127.0.0.1" 5 3
    (fun _ => .connect) (by decide) (by decide) (by decide)).1
  rw [h]
  decide
